import Mathlib

/-!
Shallow embedding of `humblebundle-ebook-downloader` (`src/index.js`) and
verification of its specification.

JavaScript strings are modelled as Lean `String`; the string primitives the
program uses (`toLowerCase`, `split`, `endsWith`, `includes`) are implemented
here as structural recursions over `String.data` so that every definition
evaluates inside the kernel.  JavaScript truthiness of possibly-absent
(`undefined`) string properties is made explicit via `Option String`.
-/

/-- ASCII lower-casing of one character, the fragment of
`String.prototype.toLowerCase` exercised by the program's data. -/
def toLowerChar (c : Char) : Char :=
  if 65 ≤ c.toNat && c.toNat ≤ 90 then Char.ofNat (c.toNat + 32) else c

/-- Model of JavaScript `s.toLowerCase()`. -/
def jsToLower (s : String) : String := String.mk (s.data.map toLowerChar)

/-- `as` is a prefix of `bs`. -/
def isPrefixOfChars : List Char → List Char → Bool
  | [], _ => true
  | _ :: _, [] => false
  | a :: as, b :: bs => a == b && isPrefixOfChars as bs

/-- Substring containment on character lists. -/
def containsChars (sub : List Char) : List Char → Bool
  | [] => sub.isEmpty
  | c :: rest => isPrefixOfChars sub (c :: rest) || containsChars sub rest

/-- Model of JavaScript `s.includes(sub)`. -/
def jsIncludes (s sub : String) : Bool := containsChars sub.data s.data

/-- Split a character list at every occurrence of `sep` (JavaScript
`String.prototype.split` with a one-character separator; the program only
splits on `'/'` and `','`). -/
def splitCharList (sep : Char) : List Char → List (List Char)
  | [] => [[]]
  | c :: cs =>
    match splitCharList sep cs with
    | [] => [[]]
    | r :: rs => if c == sep then [] :: r :: rs else (c :: r) :: rs

/-- Model of JavaScript `s.split(sep)` for a one-character separator. -/
def jsSplit (s : String) (sep : Char) : List String :=
  (splitCharList sep s.data).map String.mk

/-- Model of JavaScript `s.endsWith(suffix)`. -/
def jsEndsWith (s suffix : String) : Bool :=
  isPrefixOfChars suffix.data.reverse s.data.reverse

/-- Truthiness of a possibly-absent JavaScript string property: `undefined`
and the empty string are falsy. -/
def jsTruthyStr : Option String → Bool
  | none => false
  | some s => s != ""

/-- A JavaScript value produced by an expression mixing booleans and strings,
with its truthiness.  Needed because `platform === 'ebook' || 'video'`
evaluates to `true` or to the string `"video"`. -/
inductive JsVal where
  | bool (b : Bool)
  | str (s : String)
deriving DecidableEq, Repr

def JsVal.truthy : JsVal → Bool
  | .bool b => b
  | .str s => s != ""

/-! ## Data model (Humble Bundle API order records, the fields the program reads) -/

/-- The `url` object of a download struct (`{web, bittorrent}`); the planner
only tests its presence and the executor reads `url.web`. -/
structure UrlStruct where
  web : String
deriving DecidableEq, Repr

/-- One `download_struct` entry: a deliverable file variant.  Absent JSON
properties are `none`. -/
structure DownloadStruct where
  name : Option String
  url : Option UrlStruct
  sha1 : Option String
  md5 : Option String
  platform : Option String
deriving DecidableEq, Repr

/-- One `downloads` entry of a subproduct: a platform section holding download
structs. -/
structure Download where
  platform : String
  download_struct : List DownloadStruct
deriving DecidableEq, Repr

/-- A subproduct (one item of a bundle). -/
structure Subproduct where
  human_name : String
  url : String
  downloads : List Download
deriving DecidableEq, Repr

/-- The `product` object of an order. -/
structure Product where
  human_name : String
deriving DecidableEq, Repr

/-- A bundle (one order record). -/
structure Bundle where
  product : Product
  created : String
  gamekey : String
  subproducts : List Subproduct
deriving DecidableEq, Repr

/-! ## Format handling (`normalizeFormat`, `adjustFormat`, `getExtension`) -/

def SUPPORTED_FORMATS : List String :=
  ["epub", "mobi", "prc", "pdf", "pdf_hd", "cbz", "video"]

/-- `normalizeFormat` from `src/index.js` (the `switch` on
`format.toLowerCase()`). -/
def normalizeFormat (format : String) : String :=
  if jsToLower format == ".cbz" then "cbz"
  else if jsToLower format == "pdf (hq)" then "pdf_hd"
  else if jsToLower format == "pdf (hd)" then "pdf_hd"
  else if jsToLower format == "download" then "download"
  else if jsToLower format == "supplement" then "supplement"
  else jsToLower format

/-- `adjustFormat` from `src/index.js`. -/
def adjustFormat (format : String) (isVideo : Bool) : String :=
  if isVideo then "video " ++ format else format

/-- `getExtension` from `src/index.js`. -/
def getExtension (format : String) : String :=
  if jsToLower format == "pdf_hd" then " (hd).pdf"
  else if jsToLower format == "supplement" then ".supplement.zip"
  else if jsToLower format == "download" then ".download.zip"
  else "." ++ format

/-! ## Planner (`requiredPlatform`, `identifyVideo`, `processBundles`) -/

/-- `requiredPlatform` from `src/index.js`: the body is
`platform === 'ebook' || 'video'`.  JavaScript `||` returns its first operand
when that operand is truthy and its second operand otherwise, so the result is
the boolean `true` or the string `"video"`. -/
def requiredPlatform (platform : String) : JsVal :=
  if platform == "ebook" then .bool true else .str "video"

/-- `identifyVideo` from `src/index.js`.  It receives a download struct (whose
`platform` property is `undefined` unless the API supplies one) and the
enclosing subproduct; call sites have established that `name` is truthy. -/
def identifyVideo (download : DownloadStruct) (subproduct : Subproduct) : Bool :=
  if download.platform == some "video" then
    true
  else
    let isDownloadOrSupplement :=
      normalizeFormat (download.name.getD "") == "download" ||
      normalizeFormat (download.name.getD "") == "supplement"
    let urlParts := jsSplit subproduct.url '/'
    let urlIsVideo := urlParts.any (fun string => jsEndsWith string "video")
    if isDownloadOrSupplement && urlIsVideo then true else false

/-- One entry of `bundleDownloads` in `processBundles`: a planned download
task. -/
structure DownloadTask where
  bundle : String
  download : DownloadStruct
  name : String
  adjustedFormat : String
deriving DecidableEq, Repr

/-- Construction of the task `processBundles` pushes for an admitted struct. -/
def taskOf (bundleName : String) (subproduct : Subproduct)
    (filteredDownload : DownloadStruct) : DownloadTask :=
  let isVideo := identifyVideo filteredDownload subproduct
  let normalizedFormat := normalizeFormat (filteredDownload.name.getD "")
  { bundle := bundleName
    download := filteredDownload
    name := subproduct.human_name
    adjustedFormat := adjustFormat normalizedFormat isVideo }

/-- The `normalizedFormat` the struct filter computes: `'video'` for a
variant classified as video, the normalized name otherwise. -/
def structFormat (subproduct : Subproduct) (download : DownloadStruct) : String :=
  if identifyVideo download subproduct then "video"
  else normalizeFormat (download.name.getD "")

/-- The conditional `bundleFormats.push(normalizedFormat)` of the struct
filter: record a supported format not yet seen. -/
def recordFormat (bundleFormats : List String) (normalizedFormat : String) :
    List String :=
  if !bundleFormats.contains normalizedFormat &&
      SUPPORTED_FORMATS.contains normalizedFormat then
    bundleFormats ++ [normalizedFormat]
  else bundleFormats

/-- The body of the struct filter in `processBundles`, threaded through a fold
because it also records, in `bundleFormats`, every supported format seen (for
the zero-task diagnostic). The accumulator is `(bundleFormats, admitted)`. -/
def structStep (formatsToDownload : List String) (subproduct : Subproduct)
    (acc : List String × List DownloadStruct) (download : DownloadStruct) :
    List String × List DownloadStruct :=
  if !jsTruthyStr download.name || download.url.isNone then
    acc
  else if formatsToDownload.contains "all" ||
      formatsToDownload.contains (structFormat subproduct download) then
    (recordFormat acc.1 (structFormat subproduct download), acc.2 ++ [download])
  else
    (recordFormat acc.1 (structFormat subproduct download), acc.2)

/-- The struct filter's admission decision in isolation (its `return` value,
separated from the `bundleFormats` recording): the variant has a truthy name
and a url, and its (video-adjusted) normalized format is requested or the
wildcard `all` is. -/
def admitsStruct (formatsToDownload : List String) (subproduct : Subproduct)
    (download : DownloadStruct) : Bool :=
  if !jsTruthyStr download.name || download.url.isNone then false
  else formatsToDownload.contains "all" ||
    formatsToDownload.contains (structFormat subproduct download)

/-- The variants of one subproduct that pass the platform filter and the
struct filter. -/
def admittedStructs (formatsToDownload : List String) (subproduct : Subproduct) :
    List DownloadStruct :=
  let filteredDownloads :=
    subproduct.downloads.filter (fun download => (requiredPlatform download.platform).truthy)
  ((filteredDownloads.map (fun d => d.download_struct)).flatten).filter
    (admitsStruct formatsToDownload subproduct)

/-- The per-subproduct body of `processBundles`: platform filter, struct
filter, and task construction.  Takes and returns the bundle-scoped
`bundleFormats` list; the second component is the subproduct's contribution to
`bundleDownloads`. -/
def processSubproduct (formatsToDownload : List String) (bundleName : String)
    (subproduct : Subproduct) (bundleFormats : List String) :
    List String × List DownloadTask :=
  let filteredDownloads :=
    subproduct.downloads.filter (fun download => (requiredPlatform download.platform).truthy)
  let downloadStructs := (filteredDownloads.map (fun d => d.download_struct)).flatten
  let res := downloadStructs.foldl (structStep formatsToDownload subproduct) (bundleFormats, [])
  (res.1, res.2.map (taskOf bundleName subproduct))

/-- The per-bundle body of `processBundles`: iterate the subproducts, threading
`bundleFormats`, and collect `bundleDownloads`. -/
def processBundle (formatsToDownload : List String) (bundle : Bundle) :
    List String × List DownloadTask :=
  bundle.subproducts.foldl
    (fun acc subproduct =>
      let r := processSubproduct formatsToDownload bundle.product.human_name subproduct acc.1
      (r.1, acc.2 ++ r.2))
    ([], [])

/-- The planning portion of `processBundles`: the flat task list handed to the
download executor (a bundle with no matching download only logs a diagnostic
and contributes nothing). -/
def processBundles (formatsToDownload : List String) (bundles : List Bundle) :
    List DownloadTask :=
  (bundles.map (fun bundle => (processBundle formatsToDownload bundle).2)).flatten

/-- The destination extension the executor (`downloadEbook`) derives for a
task: `getExtension(normalizeFormat(download.download.name))`. -/
def taskExtension (task : DownloadTask) : String :=
  getExtension (normalizeFormat (task.download.name.getD ""))

/-! ## Order filtering (`filterOrders`, `sortBundles`) -/

/-- The first filter of `filterOrders`: no `--filter` option, or the
lower-cased bundle name contains the lower-cased filter text. -/
def nameMatches (filterOpt : Option String) (order : Bundle) : Bool :=
  match filterOpt with
  | none => true
  | some f => jsIncludes (jsToLower order.product.human_name) (jsToLower f)

/-- The second filter of `filterOrders`: the flattened
`subproducts.[].downloads.[].platform` list contains `"ebook"`. -/
def hasEbookSection (order : Bundle) : Bool :=
  order.subproducts.any (fun sp => sp.downloads.any (fun d => d.platform == "ebook"))

/-- Lexicographic comparison on code points, the model of
`String.prototype.localeCompare` returning a non-positive number. -/
def leChars : List Char → List Char → Bool
  | [], _ => true
  | _ :: _, [] => false
  | a :: as, b :: bs => if a == b then leChars as bs else decide (a < b)

/-- `sortBundles` from `src/index.js` as a sorts-before-or-equal predicate:
`"name"` compares bundle names ascending, `"date"` compares `created` strings
descending; any other sort key leaves the order unchanged (the comparator
returns `undefined`, which `Array.prototype.sort` treats as equality). -/
def sortBundles (sortOrder : String) (a b : Bundle) : Bool :=
  if sortOrder == "name" then leChars a.product.human_name.data b.product.human_name.data
  else if sortOrder == "date" then leChars b.created.data a.created.data
  else true

/-- `filterOrders` from `src/index.js`: name filter, ebook-section filter, and
the stable sort by the `--sort` key (`Array.prototype.sort` is modelled by the
stable `List.insertionSort`). -/
def filterOrders (filterOpt : Option String) (sortOrder : String)
    (orders : List Bundle) : List Bundle :=
  List.insertionSort (fun a b => sortBundles sortOrder a b = true)
    ((orders.filter (nameMatches filterOpt)).filter hasEbookSection)

/-! ## Session cache (`loadConfig`) -/

/-- A thrown JavaScript error, as far as `loadConfig` inspects it: its
optional `code` property (`"ENOENT"` on a missing file; `undefined` on a
`SyntaxError` from `JSON.parse`) and its message. -/
structure JsError where
  code : Option String
  message : String
deriving DecidableEq, Repr

/-- The parsed session cache (`{session, expires}`); `loadConfig` returns it
unexamined, so its fields stay optional strings. -/
structure Config where
  session : Option String
  expires : Option String
deriving DecidableEq, Repr

/-- The empty object `{}` returned on a cache miss. -/
def emptyConfig : Config := ⟨none, none⟩

/-- `loadConfig` from `src/index.js`.  `read` is the outcome of
`readFile(configPath)` and `parse` models `JSON.parse`; the `catch` block
returns `{}` exactly when the thrown error's `code` is `'ENOENT'` and rethrows
otherwise. -/
def loadConfig (read : Except JsError String)
    (parse : String → Except JsError Config) : Except JsError Config :=
  match (do let file ← read; parse file : Except JsError Config) with
  | .ok cfg => .ok cfg
  | .error error =>
    if error.code == some "ENOENT" then .ok emptyConfig else .error error

/-! ## Key validation and chunked order fetch -/

/-- `filterKeys` from `src/index.js`: with no `--keys` option all fetched keys
are returned; otherwise the comma-separated requested keys must all occur in
the fetched list, and the first missing one raises `Invalid key <key>`. -/
def filterKeys (optionsKeys : Option String) (keys : List String) :
    Except String (List String) :=
  match optionsKeys with
  | none => .ok keys
  | some ks =>
    let specifiedKeys := jsSplit ks ','
    match specifiedKeys.find? (fun key => !keys.contains key) with
    | some key => .error ("Invalid key " ++ key)
    | none => .ok specifiedKeys

/-- `chunkArray` from `src/index.js`:
`Array.from({length: ceil(n / size)}, (_, i) => array.slice(i*size, i*size + size))`. -/
def chunkArray (array : List α) (size : Nat) : List (List α) :=
  (List.range ((array.length + size - 1) / size)).map
    (fun index => (array.drop (index * size)).take size)

/-- The batched detail requests `fetchAndFilterOrders` issues: one request per
40-key chunk. -/
def detailRequests (keys : List String) : List (List String) :=
  chunkArray keys 40

/-- `fetchAndFilterOrders` from `src/index.js`.  The `/api/v1/orders` endpoint
is modelled by `orderFor`, returning the order record of each requested key
(`Object.values` of the response, one value per key); the per-chunk arrays are
spread into one flat list. -/
def fetchAndFilterOrders (orderFor : String → Bundle) (keys : List String) :
    List Bundle :=
  ((chunkArray keys 40).map (fun chunk => chunk.map orderFor)).flatten

/-- The key/order phase of `main`: `filterKeys` validates the requested keys
before `fetchAndFilterOrders` issues any detail request; an error aborts the
phase with no requests issued.  Returns the issued requests together with the
merged orders. -/
def orderPhase (optionsKeys : Option String) (fetchedKeys : List String)
    (orderFor : String → Bundle) :
    Except String (List (List String) × List Bundle) := do
  let filteredKeys ← filterKeys optionsKeys fetchedKeys
  pure (detailRequests filteredKeys, fetchAndFilterOrders orderFor filteredKeys)

/-! ## Integrity check (`checkSignatureMatch`) -/

/-- Strict equality `hash === hashToVerify` where `hash` is a string and
`hashToVerify` may be `undefined` (an absent checksum property). -/
def jsStrictEqStr (hash : String) (hashToVerify : Option String) : Bool :=
  match hashToVerify with
  | some s => hash == s
  | none => false

/-- `checkSignatureMatch` from `src/index.js` over an abstract content type:
`file` is the file at `filePath` (`none` when `existsSync` is false), and
`sha1Of`/`md5Of` model `hasha.fromFile` for the two algorithms.  The algorithm
is `'sha1'` when `download.sha1` is truthy and `'md5'` otherwise, and the
expected hash is the download's property for that same algorithm. -/
def checkSignatureMatch (Content : Type) (file : Option Content)
    (sha1Of md5Of : Content → String) (download : DownloadStruct) : Bool :=
  match file with
  | none => false
  | some contents =>
    let useSha1 := jsTruthyStr download.sha1
    let hashToVerify := if useSha1 then download.sha1 else download.md5
    let hash := if useSha1 then sha1Of contents else md5Of contents
    jsStrictEqStr hash hashToVerify

/-! ## Spec-side predicate for the order filter (refinement comparison) -/

/-- The keep-predicate in the specification's words: the bundle passes the
optional case-insensitive name-substring filter and has at least one
downloadable variant (truthy name and a url) whose platform tag is `"ebook"`
or `"video"`.  Stated for comparison with `filterOrders`. -/
def specKeepsBundle (filterOpt : Option String) (order : Bundle) : Bool :=
  nameMatches filterOpt order &&
  order.subproducts.any (fun sp => sp.downloads.any (fun d =>
    (d.platform == "ebook" || d.platform == "video") &&
    d.download_struct.any (fun ds => jsTruthyStr ds.name && ds.url.isSome)))

/-! ## Concrete fixtures -/

/-- A plain PDF variant with a name and a url and no checksums. -/
def pdfStruct : DownloadStruct :=
  ⟨some "PDF", some ⟨"https://dl.example/file.pdf"⟩, none, none, none⟩

/-- A subproduct whose only platform section is `"windows"`. -/
def windowsSubproduct : Subproduct :=
  ⟨"Some Tool", "https://example.com/product/some-tool/1", [⟨"windows", [pdfStruct]⟩]⟩

/-- A bundle whose only variant sits under the `"windows"` platform. -/
def windowsBundle : Bundle :=
  ⟨⟨"Windows Bundle"⟩, "2020-01-01", "key1", [windowsSubproduct]⟩

/-- A downloadable variant under a `"video"` platform section. -/
def videoStruct : DownloadStruct :=
  ⟨some "Download", some ⟨"https://dl.example/file.zip"⟩, none, none, none⟩

/-- A subproduct whose only platform section is `"video"`. -/
def videoSubproduct : Subproduct :=
  ⟨"Some Course", "https://example.com/product/some-course-video/2",
   [⟨"video", [videoStruct]⟩]⟩

/-- A bundle whose only downloadable variants are tagged `"video"`. -/
def videoBundle : Bundle :=
  ⟨⟨"Video Bundle"⟩, "2021-01-01", "key2", [videoSubproduct]⟩

/-- A `"PDF (HQ)"` variant. -/
def hqStruct : DownloadStruct :=
  ⟨some "PDF (HQ)", some ⟨"https://dl.example/hq.pdf"⟩, none, none, none⟩

/-- A `"PDF (HD)"` variant. -/
def hdStruct : DownloadStruct :=
  ⟨some "PDF (HD)", some ⟨"https://dl.example/hd.pdf"⟩, none, none, none⟩

/-- One subproduct offering both `"PDF (HQ)"` and `"PDF (HD)"`, which
normalize to the same canonical tag `pdf_hd`. -/
def hqhdSubproduct : Subproduct :=
  ⟨"Book", "https://example.com/product/book/3", [⟨"ebook", [hqStruct, hdStruct]⟩]⟩

/-- A bundle holding `hqhdSubproduct`. -/
def hqhdBundle : Bundle :=
  ⟨⟨"HD Bundle"⟩, "2022-01-01", "key3", [hqhdSubproduct]⟩

/-- The (subproduct name, canonical format tag) pair of a task. -/
def taskKey (t : DownloadTask) : String × String :=
  (t.name, normalizeFormat (t.download.name.getD ""))

/-- An `"EPUB"` variant. -/
def epubStruct : DownloadStruct :=
  ⟨some "EPUB", some ⟨"https://dl.example/book.epub"⟩, none, none, none⟩

/-- The specification's scenario subproduct: variants labeled `"EPUB"` and
`"PDF (HD)"`. -/
def scenarioSubproduct : Subproduct :=
  ⟨"Some Book", "https://example.com/product/some-book/4",
   [⟨"ebook", [epubStruct, hdStruct]⟩]⟩

/-- The bundle of the specification's scenario. -/
def scenarioBundle : Bundle :=
  ⟨⟨"Scenario Bundle"⟩, "2023-01-01", "key4", [scenarioSubproduct]⟩

/-- A `JSON.parse` model that fails on every input with a `SyntaxError`
(whose `code` property is `undefined`). -/
def syntaxErrorParse : String → Except JsError Config :=
  fun _ => .error ⟨none, "Unexpected token"⟩

/-- A detail-endpoint model returning a distinct order record per key. -/
def orderPerKey : String → Bundle :=
  fun key => ⟨⟨key⟩, "", key, []⟩

/-- A concrete file-content hasher pair over `Nat` contents. -/
def sha1Oracle : Nat → String := fun n => if n == 7 then "s7" else "sx"

/-- See `sha1Oracle`. -/
def md5Oracle : Nat → String := fun n => if n == 7 then "m7" else "mx"

/-- A variant carrying only a SHA-1 checksum. -/
def sha1OnlyStruct : DownloadStruct := ⟨some "PDF", none, some "s7", none, none⟩

/-- A variant carrying neither checksum. -/
def noChecksumStruct : DownloadStruct := ⟨some "PDF", none, none, none, none⟩

/-- A struct explicitly tagged with the `"ebook"` platform. -/
def ebookTaggedStruct : DownloadStruct := ⟨some "EPUB", none, none, none, some "ebook"⟩

/-- A struct explicitly tagged with the `"video"` platform. -/
def videoTaggedStruct : DownloadStruct := ⟨some "MP4", none, none, none, some "video"⟩

/-! ## Helper lemmas -/

/-- Chunking a nonempty list peels off its first 40 elements. -/
theorem chunkArray_forty_cons {α : Type} (l : List α) (h : l ≠ []) :
    chunkArray l 40 = l.take 40 :: chunkArray (l.drop 40) 40 := by
  have hn : 0 < l.length := List.length_pos.mpr h
  unfold chunkArray
  have harith : (l.length + 40 - 1) / 40 = ((l.drop 40).length + 40 - 1) / 40 + 1 := by
    rw [List.length_drop]
    omega
  rw [harith, List.range_succ_eq_map]
  simp only [List.map_cons, List.map_map]
  refine congrArg₂ List.cons (by simp) ?_
  refine List.map_congr_left ?_
  intro i _
  simp only [Function.comp_apply, List.drop_drop]
  have : Nat.succ i * 40 = 40 + i * 40 := by omega
  rw [this]

/-- The 40-chunks of a list concatenate back to the list. -/
theorem chunkArray_forty_flatten {α : Type} (l : List α) :
    (chunkArray l 40).flatten = l := by
  generalize hn : l.length = n
  induction n using Nat.strong_induction_on generalizing l with
  | _ n ih =>
    cases l with
    | nil => simp [chunkArray]
    | cons x xs =>
      rw [chunkArray_forty_cons _ (by simp), List.flatten_cons,
        ih ((x :: xs).drop 40).length (by subst hn; simp; omega) _ rfl]
      exact List.take_append_drop 40 (x :: xs)

/-- The struct filter's fold records formats on the left and filters the
structs on the right: its second component is the plain filter by
`admitsStruct`. -/
theorem foldl_structStep (formatsToDownload : List String) (subproduct : Subproduct) :
    ∀ (structs : List DownloadStruct) (bf : List String) (acc : List DownloadStruct),
      (structs.foldl (structStep formatsToDownload subproduct) (bf, acc)).2 =
        acc ++ structs.filter (admitsStruct formatsToDownload subproduct) := by
  intro structs
  induction structs with
  | nil => intro bf acc; simp
  | cons d ds ih =>
    intro bf acc
    rw [List.foldl_cons, List.filter_cons]
    by_cases h1 : (!jsTruthyStr d.name || d.url.isNone) = true
    · have hstep : structStep formatsToDownload subproduct (bf, acc) d = (bf, acc) := by
        unfold structStep; rw [if_pos h1]
      have hadm : admitsStruct formatsToDownload subproduct d = false := by
        unfold admitsStruct; rw [if_pos h1]
      rw [hstep, hadm, ih]
      simp
    · by_cases h2 : (formatsToDownload.contains "all" ||
          formatsToDownload.contains (structFormat subproduct d)) = true
      · have hstep : structStep formatsToDownload subproduct (bf, acc) d =
            (recordFormat bf (structFormat subproduct d), acc ++ [d]) := by
          unfold structStep; rw [if_neg h1, if_pos h2]
        have hadm : admitsStruct formatsToDownload subproduct d = true := by
          unfold admitsStruct; rw [if_neg h1]; exact h2
        rw [hstep, hadm, ih]
        simp
      · have hstep : structStep formatsToDownload subproduct (bf, acc) d =
            (recordFormat bf (structFormat subproduct d), acc) := by
          unfold structStep; rw [if_neg h1, if_neg h2]
        have hadm : admitsStruct formatsToDownload subproduct d = false := by
          unfold admitsStruct; rw [if_neg h1]; exact Bool.of_not_eq_true h2
        rw [hstep, hadm, ih]
        simp

/-- Membership in the filtered-and-sorted order list. -/
theorem mem_filterOrders (filterOpt : Option String) (sortOrder : String)
    (orders : List Bundle) (b : Bundle) :
    b ∈ filterOrders filterOpt sortOrder orders ↔
      b ∈ orders ∧ nameMatches filterOpt b = true ∧ hasEbookSection b = true := by
  unfold filterOrders
  rw [(List.perm_insertionSort _ _).mem_iff]
  simp only [List.mem_filter, and_assoc]

/-! ## Claim theorems -/

/-- C1: the spec says a variant whose platform tag is neither `"ebook"` nor
`"video"` is rejected and contributes no download task.  The code's
`requiredPlatform` is `platform === 'ebook' || 'video'`, which is truthy for
every platform, so a variant under the `"windows"` platform is admitted and
does contribute a task. -/
theorem requiredPlatform_admits_every_platform :
    (∀ platform : String, (requiredPlatform platform).truthy = true) ∧
    processBundles ["pdf"] [windowsBundle] =
      [taskOf "Windows Bundle" windowsSubproduct pdfStruct] := by
  constructor
  · intro platform
    unfold requiredPlatform
    split <;> decide
  · decide

/-- C2 counterexample: a bundle whose only downloadable variant is tagged
`"video"` satisfies the claim's keep-predicate but is dropped by
`filterOrders`, which requires an `"ebook"` platform tag. -/
theorem filterOrders_drops_video_only_bundle :
    specKeepsBundle none videoBundle = true ∧
    filterOrders none "name" [videoBundle] = [] := by
  constructor <;> decide

/-- C2 (amended): the order filter keeps exactly the fetched bundles that pass
the optional case-insensitive name-substring filter and have at least one
platform section tagged `"ebook"`; a bundle whose only sections are tagged
`"video"` is dropped. -/
theorem filterOrders_keeps_exactly_ebook_bundles (filterOpt : Option String)
    (sortOrder : String) (orders : List Bundle) (b : Bundle) :
    b ∈ filterOrders filterOpt sortOrder orders ↔
      b ∈ orders ∧ nameMatches filterOpt b = true ∧ hasEbookSection b = true :=
  mem_filterOrders filterOpt sortOrder orders b

/-- C3 counterexample: an unparseable cache file is not treated like a missing
one.  A missing file (ENOENT) yields the empty config, but a file whose parse
raises a `SyntaxError` (code `undefined`) makes `loadConfig` rethrow. -/
theorem loadConfig_parse_error_is_fatal :
    loadConfig (.error ⟨some "ENOENT", "no such file"⟩) syntaxErrorParse =
      .ok emptyConfig ∧
    loadConfig (.ok "nonsense") syntaxErrorParse =
      .error ⟨none, "Unexpected token"⟩ :=
  ⟨rfl, rfl⟩

/-- C3 (amended): reading the startup session cache treats only a missing file
(an error whose `code` is `'ENOENT'`) as a cache miss yielding the empty
config; a successfully read file parses normally, and a parse error whose
`code` is not `'ENOENT'` (as with `SyntaxError`) propagates as a fatal
error. -/
theorem loadConfig_enoent_is_only_cache_miss
    (parse : String → Except JsError Config) :
    (∀ msg, loadConfig (.error ⟨some "ENOENT", msg⟩) parse = .ok emptyConfig) ∧
    (∀ s cfg, parse s = .ok cfg → loadConfig (.ok s) parse = .ok cfg) ∧
    (∀ s e, parse s = .error e → e.code ≠ some "ENOENT" →
      loadConfig (.ok s) parse = .error e) := by
  refine ⟨fun msg => rfl, ?_, ?_⟩
  · intro s cfg h
    unfold loadConfig
    rw [show Except.ok s >>= parse = parse s from rfl, h]
  · intro s e h hcode
    unfold loadConfig
    rw [show Except.ok s >>= parse = parse s from rfl, h]
    simp [hcode]

/-- C3 witness: the amended theorem applied to the concrete failing parse. -/
theorem loadConfig_enoent_is_only_cache_miss_witness :
    loadConfig (.ok "bad json") syntaxErrorParse = .error ⟨none, "Unexpected token"⟩ :=
  (loadConfig_enoent_is_only_cache_miss syntaxErrorParse).2.2 "bad json"
    ⟨none, "Unexpected token"⟩ rfl (by decide)

/-- C4 counterexample: with requested formats `[pdf_hd]` (no `all` wildcard),
one subproduct offering the raw labels `"PDF (HQ)"` and `"PDF (HD)"` — which
both normalize to the canonical tag `pdf_hd` — yields two tasks for the same
(subproduct, canonical tag) pair. -/
theorem processBundles_two_tasks_same_tag :
    (["pdf_hd"].contains "all") = false ∧
    (processBundles ["pdf_hd"] [hqhdBundle]).map taskKey =
      [("Book", "pdf_hd"), ("Book", "pdf_hd")] := by
  constructor <;> decide

/-- C4 (amended): the planner emits exactly one task per admitted variant and
performs no deduplication by canonical tag (only the diagnostic
`bundleFormats` list is deduplicated), so two raw labels normalizing to the
same canonical tag each contribute a task for the same (subproduct, tag)
pair. -/
theorem processSubproduct_one_task_per_admitted_variant
    (formatsToDownload : List String) (bundleName : String)
    (subproduct : Subproduct) (bundleFormats : List String) :
    (processSubproduct formatsToDownload bundleName subproduct bundleFormats).2 =
      (admittedStructs formatsToDownload subproduct).map (taskOf bundleName subproduct) := by
  unfold processSubproduct admittedStructs
  dsimp only
  rw [foldl_structStep]
  simp

/-- C5: when `--keys` supplies an explicit subset containing a key absent from
the account's fetched key list, `filterKeys` raises `Invalid key <key>` and
the order phase aborts with that error, issuing no detail request. -/
theorem filterKeys_invalid_key_blocks_fetch (ks : String)
    (fetchedKeys : List String) (orderFor : String → Bundle) (key : String)
    (hmem : key ∈ jsSplit ks ',') (habs : key ∉ fetchedKeys) :
    ∃ badKey, badKey ∉ fetchedKeys ∧
      filterKeys (some ks) fetchedKeys = .error ("Invalid key " ++ badKey) ∧
      orderPhase (some ks) fetchedKeys orderFor = .error ("Invalid key " ++ badKey) := by
  have hfind : (jsSplit ks ',').find? (fun k => !fetchedKeys.contains k) ≠ none := by
    rw [Ne, List.find?_eq_none]
    intro hall
    have hk := hall key hmem
    simp [habs] at hk
  obtain ⟨badKey, hfound⟩ := Option.ne_none_iff_exists'.mp hfind
  have hbad : badKey ∉ fetchedKeys := by
    have := List.find?_some hfound
    simpa using this
  have hfk : filterKeys (some ks) fetchedKeys = .error ("Invalid key " ++ badKey) := by
    unfold filterKeys
    dsimp only
    rw [hfound]
  refine ⟨badKey, hbad, hfk, ?_⟩
  unfold orderPhase
  rw [hfk]
  rfl

/-- C5 witness: requesting keys `k1,k9` against the fetched list
`[k1, k2]`. -/
theorem filterKeys_invalid_key_blocks_fetch_witness :
    ∃ badKey, badKey ∉ ["k1", "k2"] ∧
      filterKeys (some "k1,k9") ["k1", "k2"] = .error ("Invalid key " ++ badKey) ∧
      orderPhase (some "k1,k9") ["k1", "k2"] orderPerKey =
        .error ("Invalid key " ++ badKey) :=
  filterKeys_invalid_key_blocks_fetch "k1,k9" ["k1", "k2"] orderPerKey "k9"
    (by decide) (by decide)

/-- C6: the detail fetch for N keys issues exactly `⌈N/40⌉` chunked requests
of at most 40 keys each, the chunks concatenate back to the key list, the
merged order list is the concatenation of the per-chunk results (one order per
key, in order), it covers every requested key, and for distinct keys (and a
detail endpoint returning distinct records per key) it has no duplicates. -/
theorem fetchAndFilterOrders_chunking (keys : List String)
    (orderFor : String → Bundle) (hnd : keys.Nodup)
    (hinj : Function.Injective orderFor) :
    (detailRequests keys).length = (keys.length + 39) / 40 ∧
    (∀ chunk ∈ detailRequests keys, chunk.length ≤ 40) ∧
    (detailRequests keys).flatten = keys ∧
    fetchAndFilterOrders orderFor keys = keys.map orderFor ∧
    (∀ key ∈ keys, orderFor key ∈ fetchAndFilterOrders orderFor keys) ∧
    (fetchAndFilterOrders orderFor keys).Nodup := by
  have hflat : (chunkArray keys 40).flatten = keys := chunkArray_forty_flatten keys
  have hmap : fetchAndFilterOrders orderFor keys = keys.map orderFor := by
    unfold fetchAndFilterOrders
    rw [← List.map_flatten, hflat]
  refine ⟨?_, ?_, hflat, hmap, ?_, ?_⟩
  · simp only [detailRequests, chunkArray, List.length_map, List.length_range]
    omega
  · intro chunk hc
    simp only [detailRequests, chunkArray, List.mem_map] at hc
    obtain ⟨i, _, rfl⟩ := hc
    simp [List.length_take]
  · intro key hk
    rw [hmap]
    exact List.mem_map_of_mem orderFor hk
  · rw [hmap]
    exact hnd.map hinj

/-- C6 witness: two distinct keys against the one-record-per-key endpoint
model. -/
theorem fetchAndFilterOrders_chunking_witness :
    (detailRequests ["k1", "k2"]).flatten = ["k1", "k2"] ∧
    fetchAndFilterOrders orderPerKey ["k1", "k2"] =
      ["k1", "k2"].map orderPerKey ∧
    (fetchAndFilterOrders orderPerKey ["k1", "k2"]).Nodup := by
  have h := fetchAndFilterOrders_chunking ["k1", "k2"] orderPerKey
    (by decide)
    (fun a b hab => congrArg Bundle.gamekey hab)
  exact ⟨h.2.2.1, h.2.2.2.1, h.2.2.2.2.2⟩


/-- C7: video classification is a pure function of the struct's platform, its
normalized tag and the subproduct URL: it is true iff the platform is exactly
`"video"`, or the normalized tag is `"download"` or `"supplement"` and some
slash-delimited segment of the subproduct URL ends with `"video"`; platform
`"video"` always yields true, and platform `"ebook"` with a non-ambiguous tag
always yields false. -/
theorem identifyVideo_spec (download : DownloadStruct) (subproduct : Subproduct) :
    (identifyVideo download subproduct = true ↔
      download.platform = some "video" ∨
      ((normalizeFormat (download.name.getD "") = "download" ∨
        normalizeFormat (download.name.getD "") = "supplement") ∧
       ∃ part ∈ jsSplit subproduct.url '/', jsEndsWith part "video" = true)) ∧
    (download.platform = some "video" → identifyVideo download subproduct = true) ∧
    (download.platform = some "ebook" →
      normalizeFormat (download.name.getD "") ≠ "download" →
      normalizeFormat (download.name.getD "") ≠ "supplement" →
      identifyVideo download subproduct = false) := by
  have hiff : identifyVideo download subproduct = true ↔
      download.platform = some "video" ∨
      ((normalizeFormat (download.name.getD "") = "download" ∨
        normalizeFormat (download.name.getD "") = "supplement") ∧
       ∃ part ∈ jsSplit subproduct.url '/', jsEndsWith part "video" = true) := by
    unfold identifyVideo
    by_cases hp : download.platform = some "video"
    · simp [hp]
    · simp [hp, Bool.and_eq_true, Bool.or_eq_true, List.any_eq_true, beq_iff_eq]
  refine ⟨hiff, fun h => hiff.mpr (Or.inl h), ?_⟩
  intro hp h1 h2
  rw [Bool.eq_false_iff]
  intro hv
  rcases hiff.mp hv with h | ⟨hds, _⟩
  · rw [hp] at h
    simp at h
  · rcases hds with h | h
    · exact h1 h
    · exact h2 h

/-- C7 witness: a `"video"`-tagged struct classifies as video and an
`"ebook"`-tagged struct with the unambiguous tag `epub` does not. -/
theorem identifyVideo_spec_witness :
    identifyVideo videoTaggedStruct scenarioSubproduct = true ∧
    identifyVideo ebookTaggedStruct scenarioSubproduct = false :=
  ⟨(identifyVideo_spec videoTaggedStruct scenarioSubproduct).2.1 rfl,
   (identifyVideo_spec ebookTaggedStruct scenarioSubproduct).2.2 rfl
     (by decide) (by decide)⟩

/-- C8: format normalization is total and deterministic on the lower-cased
label — each table entry maps to its canonical tag case-insensitively and any
other label passes through lower-cased — and the specification's scenario
(variants `"EPUB"` and `"PDF (HD)"`, requested format `epub`) yields exactly
one task with canonical tag `epub` and destination extension `.epub`. -/
theorem normalizeFormat_total_and_scenario :
    (∀ s, jsToLower s = ".cbz" → normalizeFormat s = "cbz") ∧
    (∀ s, jsToLower s = "pdf (hq)" → normalizeFormat s = "pdf_hd") ∧
    (∀ s, jsToLower s = "pdf (hd)" → normalizeFormat s = "pdf_hd") ∧
    (∀ s, jsToLower s = "download" → normalizeFormat s = "download") ∧
    (∀ s, jsToLower s = "supplement" → normalizeFormat s = "supplement") ∧
    (∀ s, jsToLower s ∉ [".cbz", "pdf (hq)", "pdf (hd)", "download", "supplement"] →
      normalizeFormat s = jsToLower s) ∧
    processBundles ["epub"] [scenarioBundle] =
      [taskOf "Scenario Bundle" scenarioSubproduct epubStruct] ∧
    (taskOf "Scenario Bundle" scenarioSubproduct epubStruct).adjustedFormat = "epub" ∧
    taskExtension (taskOf "Scenario Bundle" scenarioSubproduct epubStruct) = ".epub" := by
  refine ⟨?_, ?_, ?_, ?_, ?_, ?_, by decide, by decide, by decide⟩ <;>
    intro s h
  · unfold normalizeFormat; rw [h]; decide
  · unfold normalizeFormat; rw [h]; decide
  · unfold normalizeFormat; rw [h]; decide
  · unfold normalizeFormat; rw [h]; decide
  · unfold normalizeFormat; rw [h]; decide
  · simp only [List.mem_cons, List.not_mem_nil, or_false, not_or] at h
    obtain ⟨h1, h2, h3, h4, h5⟩ := h
    simp [normalizeFormat, h1, h2, h3, h4, h5]

/-- C8 witness: the table theorem applied to the labels `"PDF (HQ)"` and
`"EPUB"`. -/
theorem normalizeFormat_total_and_scenario_witness :
    normalizeFormat "PDF (HQ)" = "pdf_hd" ∧ normalizeFormat "EPUB" = "epub" :=
  ⟨normalizeFormat_total_and_scenario.2.1 "PDF (HQ)" (by decide),
   (normalizeFormat_total_and_scenario.2.2.2.2.2.1 "EPUB" (by decide)).trans
     (by decide)⟩

/-- C9: the integrity check returns false when no file exists; when a file
exists and the variant carries a SHA-1 checksum it compares the SHA-1 hash of
the file contents against it, else (SHA-1 falsy, MD5 present) it compares the
MD5 hash, returning true exactly on equality. -/
theorem checkSignatureMatch_spec (Content : Type)
    (sha1Of md5Of : Content → String) (download : DownloadStruct) :
    checkSignatureMatch Content none sha1Of md5Of download = false ∧
    (∀ s contents, download.sha1 = some s → s ≠ "" →
      (checkSignatureMatch Content (some contents) sha1Of md5Of download = true ↔
        sha1Of contents = s)) ∧
    (∀ m contents, jsTruthyStr download.sha1 = false → download.md5 = some m →
      (checkSignatureMatch Content (some contents) sha1Of md5Of download = true ↔
        md5Of contents = m)) := by
  refine ⟨rfl, ?_, ?_⟩
  · intro s contents hs hne
    have ht : jsTruthyStr (some s) = true := by
      simpa [jsTruthyStr] using hne
    simp [checkSignatureMatch, jsStrictEqStr, hs, ht]
  · intro m contents h0 hm
    simp [checkSignatureMatch, jsStrictEqStr, h0, hm]

/-- C9 witness: a SHA-1-carrying variant against a present and an absent
file. -/
theorem checkSignatureMatch_spec_witness :
    (checkSignatureMatch Nat (some 7) sha1Oracle md5Oracle sha1OnlyStruct = true ↔
      sha1Oracle 7 = "s7") ∧
    checkSignatureMatch Nat none sha1Oracle md5Oracle sha1OnlyStruct = false :=
  ⟨(checkSignatureMatch_spec Nat sha1Oracle md5Oracle sha1OnlyStruct).2.1 "s7" 7
      rfl (by decide),
   (checkSignatureMatch_spec Nat sha1Oracle md5Oracle sha1OnlyStruct).1⟩

/-- C10: a variant carrying neither a SHA-1 nor an MD5 checksum can never be
reported as already satisfied: the MD5 branch is selected with an absent
expected hash, the strict comparison against the computed string fails, and
the result is false for every file state, including a byte-identical file. -/
theorem checkSignatureMatch_no_checksum_never_matches (Content : Type)
    (file : Option Content) (sha1Of md5Of : Content → String)
    (download : DownloadStruct) (hs : download.sha1 = none)
    (hm : download.md5 = none) :
    checkSignatureMatch Content file sha1Of md5Of download = false := by
  cases file with
  | none => rfl
  | some contents => simp [checkSignatureMatch, jsStrictEqStr, jsTruthyStr, hs, hm]

/-- C10 witness: a checksum-less variant with a present file. -/
theorem checkSignatureMatch_no_checksum_never_matches_witness :
    checkSignatureMatch Nat (some 7) sha1Oracle md5Oracle noChecksumStruct = false :=
  checkSignatureMatch_no_checksum_never_matches Nat (some 7) sha1Oracle md5Oracle
    noChecksumStruct rfl rfl
